import Mathlib

/-!
Shallow embedding of `editors/code/src/net.ts`: release-metadata fetching,
artifact download with progress reporting, and the temp/rename-based install
performed by `download`.  JavaScript strings are modelled as Lean `String`s,
byte streams as `List Nat`, and the JavaScript numbers arising here (byte
counts, statuses, percentages) as `Nat`/`Int`, with the one real-number
computation, `Math.round((readBytes / totalBytes) * 100)`, carried out in
exact rational arithmetic over `ℚ`.  Network, filesystem and randomness are
effects; they enter the model as explicit inputs (the fetched response, an
`FsWorld` of operation outcomes, the random hex token), and the functions
return the data the source would produce from them.
-/

namespace Net

/-! ### JavaScript primitives used by net.ts -/

/-- Numeric value of a decimal digit character, when it is one. -/
def digitVal : Char → Option Nat
  | c => if '0' ≤ c ∧ c ≤ '9' then some (c.toNat - '0'.toNat) else none

/-- Parse a run of decimal digits into the accumulator; any non-digit makes
the whole parse fail. -/
def parseDigits : Nat → List Char → Option Nat
  | acc, [] => some acc
  | acc, c :: cs =>
    match digitVal c with
    | some d => parseDigits (acc * 10 + d) cs
    | none => none

/-- Modelled semantics of `Number(res.headers.get("content-length"))`
(net.ts:188).  `headers.get` yields `null` (here `none`) when the header is
absent, and JavaScript's `Number(null)` is `0`; `Number("")` is also `0`; an
optionally negated digit string parses to its integer value; any other string
is `NaN`, rendered as `none` in the result.  HTTP content-length values are
integral, so fractional/exponent forms are not modelled. -/
def jsNumberOfHeader : Option String → Option Int
  | none => some 0
  | some s =>
    match s.data with
    | [] => some 0
    | '-' :: c :: cs => (parseDigits 0 (c :: cs)).map (fun n => -(n : Int))
    | '-' :: [] => none
    | cs => (parseDigits 0 cs).map (fun n => (n : Int))

/-- Substring test performed by JavaScript's `String.prototype.includes`:
the needle occurs contiguously somewhere in the haystack. -/
def jsIncludes (s needle : String) : Prop := needle.data <:+: s.data

instance (s needle : String) : Decidable (jsIncludes s needle) :=
  inferInstanceAs (Decidable (needle.data <:+: s.data))

/-! ### Transport selection (net.ts:36-43 and net.ts:172-179) -/

/-- Network transport selected for a request. -/
inductive Transport where
  | direct
  | proxied (endpoint : String)
deriving DecidableEq, Repr

/-- Transport selection performed by the IIFEs in `fetchRelease`
(net.ts:36-43) and `downloadFile` (net.ts:172-179): a proxy agent built from
`httpProxy` is attached exactly when `if (httpProxy)` holds, i.e. when the
value is neither null/undefined (`none`) nor the empty string (both falsy in
JavaScript). -/
def chooseTransport : Option String → Transport
  | none => .direct
  | some s => if s = "" then .direct else .proxied s

/-- An issued HTTP request: URL, headers, and the selected transport. -/
structure Request where
  url : String
  headers : List (String × String)
  transport : Transport
deriving DecidableEq, Repr

/-! ### Release metadata fetching (net.ts:19-78) -/

def GITHUB_API_ENDPOINT_URL : String := "https://api.github.com"

def OWNER : String := "rust-analyzer"

def REPO : String := "rust-analyzer"

/-- One asset of a GitHub release (net.ts:73-77). -/
structure GithubAsset where
  name : String
  browser_download_url : String
deriving DecidableEq, Repr

/-- Release metadata (net.ts:68-78, `GithubRelease`). -/
structure GithubRelease where
  name : String
  id : Nat
  published_at : String
  assets : List GithubAsset
deriving DecidableEq, Repr

/-- The request built by `fetchRelease` before awaiting the response
(net.ts:25-43): fixed endpoint parameterized by the tag, the versioned
Accept header, the optional token header (attached when `githubToken` is
non-null), and the transport chosen from the proxy setting. -/
def fetchReleaseRequest (releaseTag : String) (githubToken : Option String)
    (httpProxy : Option String) : Request :=
  { url := GITHUB_API_ENDPOINT_URL ++ "/repos/" ++ OWNER ++ "/" ++ REPO ++
      "/releases/tags/" ++ releaseTag
    headers := [("Accept", "application/vnd.github.v3+json")] ++
      (match githubToken with
        | some tok => [("Authorization", "token " ++ tok)]
        | none => [])
    transport := chooseTransport httpProxy }

/-- Abstraction of the metadata response: the HTTP status plus the value
produced by `response.json()` (which the source casts to `GithubRelease`
without runtime checks, net.ts:62-64). -/
structure ApiResponse where
  status : Nat
  jsonBody : GithubRelease
deriving DecidableEq, Repr

/-- The `response.ok` predicate of the Fetch API: status in 200..299. -/
def responseOk (status : Nat) : Prop := 200 ≤ status ∧ status ≤ 299

instance (s : Nat) : Decidable (responseOk s) :=
  inferInstanceAs (Decidable (200 ≤ s ∧ s ≤ 299))

/-- Error thrown by `fetchRelease` on a non-ok response (net.ts:56-59); the
thrown message interpolates the received status and the release tag, modelled
as structured data. -/
inductive FetchReleaseError where
  | httpStatus (status : Nat) (releaseTag : String)
deriving DecidableEq, Repr

/-- Response handling of `fetchRelease` (net.ts:45-64): non-ok statuses
throw (after logging status, headers and body for diagnostics), ok responses
deserialize the body. -/
def fetchRelease (releaseTag : String) (resp : ApiResponse) :
    Except FetchReleaseError GithubRelease :=
  if responseOk resp.status then .ok resp.jsonBody
  else .error (.httpStatus resp.status releaseTag)

/-! ### Progress reporting (net.ts:105-116) -/

/-- One report sent to the progress sink (net.ts:109-112): the absolute
percentage shown in the message and the increment since the last report. -/
structure ProgressEvent where
  percentage : Int
  increment : Int
deriving DecidableEq, Repr

/-- JavaScript's `Math.round` on an exact rational: floor of q + 1/2
(halves round toward positive infinity). -/
def jsRound (q : ℚ) : Int := ⌊q + 1 / 2⌋

/-- The percentage computed at net.ts:107:
`Math.round((readBytes / totalBytes) * 100)`, in exact rational
arithmetic. -/
def newPercentage (readBytes totalBytes : Int) : Int :=
  jsRound ((readBytes : ℚ) / (totalBytes : ℚ) * 100)

/-- The progress callback installed by `download` (net.ts:105-116), run over
the list of (readBytes, totalBytes) invocations: with the mutable
`lastPercentage` threaded through (the caller initialises it to 0), an event
carrying the new percentage and its delta is emitted exactly when the freshly
rounded percentage differs from the last emitted one. -/
def progressFold : Int → List (Int × Int) → List ProgressEvent
  | _, [] => []
  | lastPercentage, (readBytes, totalBytes) :: rest =>
    let np := newPercentage readBytes totalBytes
    if np ≠ lastPercentage then
      ⟨np, np - lastPercentage⟩ :: progressFold np rest
    else
      progressFold lastPercentage rest

/-! ### Artifact download (net.ts:162-218) -/

/-- A fetched HTTP response for the artifact download: status, headers, and
the body as the list of chunks delivered by the stream's data events. -/
structure FetchResponse where
  status : Nat
  headers : List (String × String)
  chunks : List (List Nat)
deriving DecidableEq, Repr

/-- Header lookup, `res.headers.get(key)`. -/
def headersGet (headers : List (String × String)) (key : String) :
    Option String :=
  (headers.find? (fun h => h.1 == key)).map (fun h => h.2)

/-- Errors thrown by `downloadFile`: a non-ok status (net.ts:185), or the
failed content-length sanity assertion (net.ts:189) — the spec's
ProtocolInvariantError. -/
inductive NetError where
  | httpStatus (status : Nat)
  | contentLengthAssertion
deriving DecidableEq, Repr

/-- The cumulative readBytes values passed to onProgress (net.ts:193-197):
readBytes starts at the accumulator and grows by each chunk's length, with
one report after every chunk.  The list argument holds the chunk lengths. -/
def cumulativeReads : Nat → List Nat → List Nat
  | _, [] => []
  | readBytes, len :: rest =>
    (readBytes + len) :: cumulativeReads (readBytes + len) rest

/-- Successful outcome of `downloadFile`: the parsed totalBytes, the
(readBytes, totalBytes) arguments of the onProgress invocations, and the
bytes written to the destination file. -/
structure DlSuccess where
  totalBytes : Int
  callbacks : List (Int × Int)
  fileBytes : List Nat
deriving DecidableEq, Repr

/-- Model of `downloadFile` (net.ts:162-218) on an already-fetched response.
The gunzip stage (zlib, an external collaborator) is passed in as a function
on byte streams.  The source's order is kept: the ok check throws first,
then `Number` is applied to the content-length header and the NaN assertion
runs, and only then is the body streamed — progress callbacks observe the
raw wire chunks while the file receives the stream routed through the
optional gunzip stage (net.ts:193-202).  The node-version close-event
workaround at net.ts:204-217 affects no modelled output. -/
def downloadFile (res : FetchResponse) (gunzipFn : List Nat → List Nat)
    (gunzip : Bool) : Except NetError DlSuccess :=
  if responseOk res.status then
    match jsNumberOfHeader (headersGet res.headers "content-length") with
    | none => .error .contentLengthAssertion
    | some totalBytes =>
      .ok { totalBytes := totalBytes
            callbacks := (cumulativeReads 0 (res.chunks.map List.length)).map
              (fun (r : Nat) => ((r : Int), totalBytes))
            fileBytes :=
              if gunzip then gunzipFn res.chunks.flatten else res.chunks.flatten }
  else .error (.httpStatus res.status)

/-- The request issued by `downloadFile` (net.ts:170-179): a GET to the URL
string with no extra headers, through the chosen transport (same selection
idiom as in `fetchRelease`). -/
def downloadFileRequest (urlString : String) (httpProxy : Option String) :
    Request :=
  { url := urlString, headers := [], transport := chooseTransport httpProxy }

/-! ### Install orchestration (net.ts:89-160) -/

/-- The result of `path.parse` on the destination's fsPath (net.ts:94):
directory, base name without extension, and extension (with its leading dot,
possibly empty). -/
structure ParsedPath where
  dir : String
  name : String
  ext : String
deriving DecidableEq, Repr

/-- A URI built by `vscode.Uri.joinPath(vscode.Uri.file(dir), base)`:
kept in joined form, directory plus appended file base. -/
structure JoinedPath where
  dir : String
  base : String
deriving DecidableEq, Repr

/-- The displaced-artifact path chosen at net.ts:95. -/
def oldServerPath (rawDest : ParsedPath) (randomHex : String) : JoinedPath :=
  ⟨rawDest.dir, rawDest.name ++ "-stale-" ++ randomHex ++ rawDest.ext⟩

/-- The temp download path chosen at net.ts:96. -/
def tempFilePath (rawDest : ParsedPath) (randomHex : String) : JoinedPath :=
  ⟨rawDest.dir, rawDest.name ++ randomHex⟩

/-- A `vscode.FileSystemError` as caught in `download`: only its optional
`code` string is ever inspected (net.ts:126-128). -/
structure FsError where
  code : Option String
deriving DecidableEq, Repr

/-- Outcomes of the filesystem operations `download` performs after the file
is on disk: the two renames, the directory listing, and per-entry deletion.
Supplying them as data lets every combination of failures be examined. -/
structure FsWorld where
  renameDestToOld : Except FsError Unit
  renameTempToDest : Except FsError Unit
  readDir : Except FsError (List String)
  deleteEntry : String → Except FsError Unit

/-- Log records produced by `download` (the log.info / log.error calls at
net.ts:124-158), used to observe which failure branches were taken. -/
inductive LogEntry where
  | renamedOldServer
  | cannotRenameExisting
  | cannotUpdateServer
  | removedOldServerBinary (entry : String)
  | unableToRemoveOldBinary (entry : String)
  | unableToEnumerate
deriving DecidableEq, Repr

/-- Selection test of the cleanup pass (net.ts:144): an entry is selected for
deletion when its name contains the substring name ++ "-stale-" built from
the destination's parsed base name. -/
def cleanupSelects (rawDest : ParsedPath) (entry : String) : Prop :=
  jsIncludes entry (rawDest.name ++ "-stale-")

instance (rawDest : ParsedPath) (entry : String) :
    Decidable (cleanupSelects rawDest entry) :=
  inferInstanceAs (Decidable (jsIncludes entry (rawDest.name ++ "-stale-")))

/-- Displace step (net.ts:122-131): rename dest to the displaced path; on
success log the info record; on error log "Cannot rename existing server
instance" unless the error's code is FileNotFound or EntryNotFound — the
condition mirrors net.ts:128 including the missing-code case; the error is
never rethrown. -/
def displaceLogs (fs : FsWorld) : List LogEntry :=
  match fs.renameDestToOld with
  | .ok _ => [.renamedOldServer]
  | .error fsErr =>
    if fsErr.code = none ∨
        (fsErr.code ≠ some "FileNotFound" ∧ fsErr.code ≠ some "EntryNotFound")
    then [.cannotRenameExisting]
    else []

/-- Final-rename step (net.ts:132-136): rename temp to dest; on error log
"Cannot update server binary"; the error is never rethrown. -/
def installLogs (fs : FsWorld) : List LogEntry :=
  match fs.renameTempToDest with
  | .ok _ => []
  | .error _ => [.cannotUpdateServer]

/-- Per-entry body of the cleanup loop (net.ts:143-155): a selected entry
gets one deletion attempt whose success or failure is logged; an unselected
entry produces nothing; an entry's failure never stops the loop. -/
def cleanupEntryLogs (rawDest : ParsedPath) (fs : FsWorld) (entry : String) :
    List LogEntry :=
  if cleanupSelects rawDest entry then
    match fs.deleteEntry entry with
    | .ok _ => [.removedOldServerBinary entry]
    | .error _ => [.unableToRemoveOldBinary entry]
  else []

/-- Cleanup pass (net.ts:138-159): list the destination directory — on
failure log "Unable to enumerate" and stop there — otherwise run the
per-entry body over every entry in order. -/
def cleanupLogs (rawDest : ParsedPath) (fs : FsWorld) : List LogEntry :=
  match fs.readDir with
  | .ok entries => (entries.map (cleanupEntryLogs rawDest fs)).flatten
  | .error _ => [.unableToEnumerate]

/-- Successful outcome of `download`: the derived temp and displaced paths,
the bytes now at the temp path, the progress events emitted through the
notification, and the logs of the post-download steps. -/
structure InstallOutcome where
  tempPath : JoinedPath
  displacedPath : JoinedPath
  tempFileBytes : List Nat
  events : List ProgressEvent
  logs : List LogEntry

/-- Model of `download` (net.ts:89-160).  Randomness (crypto.randomBytes,
already rendered as hex) and the filesystem are inputs.  The download stage
runs inside withProgress with lastPercentage starting at 0 (net.ts:105); its
failure rejects the whole call, since no try/catch surrounds it, while the
displace rename, the final rename and the cleanup pass each swallow their
failures, producing only log records. -/
def download (rawDest : ParsedPath) (gunzip : Bool) (randomHex : String)
    (res : FetchResponse) (gunzipFn : List Nat → List Nat) (fs : FsWorld) :
    Except NetError InstallOutcome :=
  match downloadFile res gunzipFn gunzip with
  | .error e => .error e
  | .ok dl =>
    .ok { tempPath := tempFilePath rawDest randomHex
          displacedPath := oldServerPath rawDest randomHex
          tempFileBytes := dl.fileBytes
          events := progressFold 0 dl.callbacks
          logs := displaceLogs fs ++ installLogs fs ++ cleanupLogs rawDest fs }

/-! ### Definitions taken from the spec's words, for comparison -/

/-- Percentage formula exactly as the spec states it (floor of the ratio
times 100), to be compared against the source's `newPercentage`. -/
def floorPercentage (readBytes totalBytes : Int) : Int :=
  ⌊(readBytes : ℚ) / (totalBytes : ℚ) * 100⌋

/-- The displaced-artifact naming pattern from the spec (section 6): the base
name, then "-stale-", then some random token, then the extension. -/
def matchesStalePattern (rawDest : ParsedPath) (entry : String) : Prop :=
  ∃ r : String, entry = rawDest.name ++ "-stale-" ++ r ++ rawDest.ext

/-! ### Arithmetic characterizations of the rounded percentage -/

/-- Computational form of the rounded percentage on natural byte counts. -/
def natPercentage (r t : Nat) : Nat := (200 * r + t) / (2 * t)

/-- Emitted percentages of the progress callback, computed purely on
naturals; used to evaluate concrete runs. -/
def natProgress : Nat → Nat → List Nat → List Nat
  | _, _, [] => []
  | lp, t, r :: rs =>
    let np := natPercentage r t
    if np ≠ lp then np :: natProgress np t rs else natProgress lp t rs

/-! ### Concrete inputs used by witnesses and counterexamples -/

/-- An ok response carrying one one-byte chunk and no content-length header
at all. -/
def c1Response : FetchResponse := ⟨200, [], [[7]]⟩

/-- An ok response with a one-byte body and a matching content-length. -/
def okOneByteResponse : FetchResponse := ⟨200, [("content-length", "1")], [[7]]⟩

/-- A filesystem world in which every post-download operation fails. -/
def allFailFs : FsWorld :=
  { renameDestToOld := .error ⟨none⟩
    renameTempToDest := .error ⟨none⟩
    readDir := .error ⟨none⟩
    deleteEntry := fun _ => .error ⟨none⟩ }

/-- A destination whose parse has a nonempty extension. -/
def c8Dest : ParsedPath := ⟨"/opt/tool", "tool", ".exe"⟩

/-- A destination with an empty extension, as for an unsuffixed binary. -/
def toolDest : ParsedPath := ⟨"/opt/tool", "tool", ""⟩

/-- A filesystem world whose directory listing holds one stale entry and
whose deletions always fail. -/
def cleanupFailFs : FsWorld :=
  { renameDestToOld := .ok ()
    renameTempToDest := .ok ()
    readDir := .ok ["tool-stale-aa"]
    deleteEntry := fun _ => .error ⟨some "NoPermissions"⟩ }

/-- Chunk lengths of a 1,048,576-byte payload delivered in 1024 chunks of
1024 bytes — small enough that every integer percentage is crossed. -/
def mbChunkLengths : List Nat := List.replicate 1024 1024

/-- The (readBytes, totalBytes) onProgress invocations `downloadFile` makes
for that payload (content-length 1048576): cumulative reads paired with the
total, exactly as built in the model of net.ts:193-197. -/
def mbCallbacks : List (Int × Int) :=
  (cumulativeReads 0 mbChunkLengths).map
    (fun (r : Nat) => ((r : Int), (1048576 : Int)))

theorem newPercentage_natCast (r t : Nat) (ht : 0 < t) :
    newPercentage (r : Int) (t : Int) = (natPercentage r t : Int) := by
  unfold newPercentage jsRound natPercentage
  have h1 : (((r : Int) : ℚ)) / (((t : Int) : ℚ)) * 100 + 1 / 2 =
      ((200 * r + t : ℕ) : ℤ) / ((2 * t : ℕ) : ℚ) := by
    have ht' : (t : ℚ) ≠ 0 := by positivity
    push_cast
    field_simp
    ring
  rw [h1, Rat.floor_intCast_div_natCast]
  norm_cast

theorem floorPercentage_natCast (r t : Nat) (ht : 0 < t) :
    floorPercentage (r : Int) (t : Int) = ((100 * r) / t : Nat) := by
  unfold floorPercentage
  have h1 : (((r : Int) : ℚ)) / (((t : Int) : ℚ)) * 100 =
      ((100 * r : ℕ) : ℤ) / ((t : ℕ) : ℚ) := by
    have ht' : (t : ℚ) ≠ 0 := by positivity
    push_cast
    field_simp
    ring
  rw [h1, Rat.floor_intCast_div_natCast]
  norm_cast

theorem newPercentage_mono {r₁ r₂ t : Int} (ht : 0 < t) (h : r₁ ≤ r₂) :
    newPercentage r₁ t ≤ newPercentage r₂ t := by
  unfold newPercentage jsRound
  apply Int.floor_le_floor
  have ht' : (0 : ℚ) < (t : ℚ) := by exact_mod_cast ht
  have h' : (r₁ : ℚ) ≤ (r₂ : ℚ) := by exact_mod_cast h
  gcongr

theorem newPercentage_zero (t : Int) : newPercentage 0 t = 0 := by
  unfold newPercentage jsRound
  have h : (((0 : Int) : ℚ)) / ((t : ℚ)) * 100 + 1 / 2 = 1 / 2 := by
    norm_num
  rw [h, Int.floor_eq_zero_iff]
  constructor <;> norm_num

/-! ### Structural lemmas about the progress fold -/

theorem progressFold_chain_lt (cbs : List (Int × Int)) : ∀ lp : Int,
    List.Chain' (· ≤ ·) (lp :: cbs.map (fun c => newPercentage c.1 c.2)) →
    List.Chain' (· < ·)
      (lp :: (progressFold lp cbs).map ProgressEvent.percentage) := by
  induction cbs with
  | nil => intro lp _; exact List.chain'_singleton lp
  | cons c rest ih =>
    intro lp h
    obtain ⟨r, t⟩ := c
    rw [List.map_cons, List.chain'_cons] at h
    obtain ⟨hle, hchain⟩ := h
    by_cases hne : newPercentage r t = lp
    · have hfold : progressFold lp ((r, t) :: rest) = progressFold lp rest := by
        simp [progressFold, hne]
      rw [hfold]
      apply ih lp
      rw [hne] at hchain
      exact hchain
    · have hfold : progressFold lp ((r, t) :: rest) =
          ⟨newPercentage r t, newPercentage r t - lp⟩ ::
            progressFold (newPercentage r t) rest := by
        simp [progressFold, hne]
      rw [hfold, List.map_cons, List.chain'_cons]
      exact ⟨lt_of_le_of_ne hle (Ne.symm hne), ih (newPercentage r t) hchain⟩

theorem cumulativeReads_chain (chunks : List Nat) : ∀ acc : Nat,
    List.Chain' (· ≤ ·) (acc :: cumulativeReads acc chunks) := by
  induction chunks with
  | nil => intro acc; exact List.chain'_singleton acc
  | cons len rest ih =>
    intro acc
    show List.Chain' (· ≤ ·) (acc :: (acc + len) :: cumulativeReads (acc + len) rest)
    rw [List.chain'_cons]
    exact ⟨Nat.le_add_right acc len, ih (acc + len)⟩

theorem progressFold_map_percentage (t : Nat) (ht : 0 < t) (reads : List Nat) :
    ∀ lp : Nat,
      (progressFold (lp : Int)
          (reads.map (fun (r : Nat) => ((r : Int), (t : Int))))).map
          ProgressEvent.percentage =
        (natProgress lp t reads).map (fun (p : Nat) => (p : Int)) := by
  induction reads with
  | nil => intro lp; rfl
  | cons r rs ih =>
    intro lp
    have hnp := newPercentage_natCast r t ht
    by_cases h : natPercentage r t = lp
    · have h1 : newPercentage (r : Int) (t : Int) = (lp : Int) := by rw [hnp, h]
      have hfold : progressFold (lp : Int)
          (((r : Nat) :: rs).map (fun (x : Nat) => ((x : Int), (t : Int)))) =
          progressFold (lp : Int) (rs.map (fun (x : Nat) => ((x : Int), (t : Int)))) := by
        simp [progressFold, h1]
      rw [hfold, ih lp]
      have hnat : natProgress lp t (r :: rs) = natProgress lp t rs := by
        simp [natProgress, h]
      rw [hnat]
    · have h1 : newPercentage (r : Int) (t : Int) ≠ (lp : Int) := by
        rw [hnp]
        exact_mod_cast h
      have hfold : progressFold (lp : Int)
          (((r : Nat) :: rs).map (fun (x : Nat) => ((x : Int), (t : Int)))) =
          ⟨newPercentage (r : Int) (t : Int),
            newPercentage (r : Int) (t : Int) - (lp : Int)⟩ ::
            progressFold (newPercentage (r : Int) (t : Int))
              (rs.map (fun (x : Nat) => ((x : Int), (t : Int)))) := by
        simp [progressFold, h1]
      have hnat : natProgress lp t (r :: rs) =
          natPercentage r t :: natProgress (natPercentage r t) t rs := by
        simp [natProgress, h]
      rw [hfold, hnat, List.map_cons, List.map_cons, hnp, ih (natPercentage r t)]

theorem progressFold_sum_increment (cbs : List (Int × Int)) : ∀ lp : Int,
    ((progressFold lp cbs).map ProgressEvent.increment).sum =
      (((progressFold lp cbs).getLast?).map ProgressEvent.percentage).getD lp
        - lp := by
  induction cbs with
  | nil => intro lp; simp [progressFold]
  | cons c rest ih =>
    intro lp
    obtain ⟨r, t⟩ := c
    by_cases h : newPercentage r t = lp
    · have hfold : progressFold lp ((r, t) :: rest) = progressFold lp rest := by
        simp [progressFold, h]
      rw [hfold]
      exact ih lp
    · have hfold : progressFold lp ((r, t) :: rest) =
          ⟨newPercentage r t, newPercentage r t - lp⟩ ::
            progressFold (newPercentage r t) rest := by
        simp [progressFold, h]
      rw [hfold, List.map_cons, List.sum_cons]
      have hrec := ih (newPercentage r t)
      cases hp : progressFold (newPercentage r t) rest with
      | nil => simp
      | cons e es =>
        rw [hp] at hrec
        rw [List.getLast?_cons_cons]
        obtain ⟨x, hl⟩ : ∃ x, (e :: es).getLast? = some x := by
          cases hgl : (e :: es).getLast? with
          | none => rw [List.getLast?_eq_none_iff] at hgl; cases hgl
          | some x => exact ⟨x, rfl⟩
        rw [hl] at hrec ⊢
        simp only [Option.map_some', Option.getD_some] at hrec ⊢
        omega

/-! ### Claim C5 evaluation helper -/

set_option maxRecDepth 8000 in
/-- Evaluation of the progress events of the 1,048,576-byte download: the
emitted percentages are exactly 1 through 100. -/
theorem mbEvents_eq_range :
    (progressFold 0 mbCallbacks).map ProgressEvent.percentage =
      (List.range' 1 100).map (fun (p : Nat) => (p : Int)) := by
  have h := progressFold_map_percentage 1048576 (by norm_num)
    (cumulativeReads 0 mbChunkLengths) 0
  have h2 : natProgress 0 1048576 (cumulativeReads 0 mbChunkLengths) =
      List.range' 1 100 := by decide
  rw [h2] at h
  exact h

/-! ### Claim theorems -/

/-- Claim C1, counterexample.  The claim says a download whose response
lacks a content-length header fails with a ProtocolInvariantError before any
byte is written.  On `c1Response` — status 200, no headers at all, a
one-byte body — `headers.get` returns null, JavaScript's `Number(null)` is
`0`, the NaN assertion passes, and the download succeeds, writing the body
byte to the temp path with totalBytes 0. -/
theorem c1_absent_content_length_succeeds :
    downloadFile c1Response id false =
      .ok ⟨0, [(1, 0)], [7]⟩ := rfl

/-- Claim C1, amended.  For an ok response, `downloadFile` fails with the
content-length assertion error exactly when `Number` applied to the header
value is NaN — which requires the header to be present but non-numeric; when
the header is absent the assertion passes (Number(null) = 0) and the
download proceeds with totalBytes 0.  When the assertion does fail, the
error is raised before the body is streamed, so no byte reaches the temp
path. -/
theorem c1_content_length_assertion_iff (res : FetchResponse)
    (g : List Nat → List Nat) (gz : Bool) (hok : responseOk res.status) :
    (downloadFile res g gz = .error .contentLengthAssertion ↔
      jsNumberOfHeader (headersGet res.headers "content-length") = none) ∧
    (headersGet res.headers "content-length" = none →
      ∃ dl, downloadFile res g gz = .ok dl ∧ dl.totalBytes = 0) := by
  constructor
  · constructor
    · intro h
      cases hj : jsNumberOfHeader (headersGet res.headers "content-length") with
      | none => rfl
      | some tb => simp [downloadFile, hok, hj] at h
    · intro h
      simp [downloadFile, hok, h]
  · intro h
    refine ⟨⟨0, (cumulativeReads 0 (res.chunks.map List.length)).map
        (fun (r : Nat) => ((r : Int), 0)),
        if gz then g res.chunks.flatten else res.chunks.flatten⟩, ?_, rfl⟩
    simp [downloadFile, hok, h, jsNumberOfHeader]

/-- Witness for C1's amended theorem: a present but non-numeric
content-length ("zzz") makes `downloadFile` fail with the assertion
error. -/
theorem c1_content_length_assertion_iff_witness :
    downloadFile ⟨200, [("content-length", "zzz")], [[1]]⟩ id false =
      .error .contentLengthAssertion :=
  (c1_content_length_assertion_iff ⟨200, [("content-length", "zzz")], [[1]]⟩
    id false (by decide)).1.mpr (by decide)

/-- Claim C3, counterexample.  At readBytes 3 of totalBytes 200, the code's
Math.round gives 2 while the spec's floor gives 1. -/
theorem c3_round_ne_floor_at_3_200 :
    newPercentage 3 200 ≠ floorPercentage 3 200 := by
  have h1 := newPercentage_natCast 3 200 (by decide)
  have h2 := floorPercentage_natCast 3 200 (by decide)
  norm_num [natPercentage] at h1 h2
  rw [h1, h2]
  decide

/-- Claim C3, amended.  The progress adapter computes the percentage as
Math.round(readBytes / totalBytes * 100) — rounding half up — which on
natural byte counts equals the integer division
(200 * readBytes + totalBytes) / (2 * totalBytes), not
floor(readBytes / totalBytes * 100). -/
theorem c3_percentage_is_round_half_up (r t : Nat) (ht : 0 < t) :
    newPercentage (r : Int) (t : Int) = (((200 * r + t) / (2 * t) : Nat) : Int) :=
  newPercentage_natCast r t ht

/-- Witness for C3's amended theorem at readBytes 3, totalBytes 200. -/
theorem c3_percentage_is_round_half_up_witness :
    0 < 200 ∧
      newPercentage ((3 : Nat) : Int) ((200 : Nat) : Int) =
        (((200 * 3 + 200) / (2 * 200) : Nat) : Int) :=
  ⟨by decide, c3_percentage_is_round_half_up 3 200 (by decide)⟩

/-- Claim C5, counterexample.  The claim says one progress event is emitted
per integer percentage from 0 through 100, an event for 0% included.  For
the 1,048,576-byte payload in 1024-byte chunks, no 0% event is emitted:
lastPercentage is initialised to 0 and an event fires only when the rounded
percentage differs from it. -/
theorem c5_no_zero_percent_event :
    (0 : Int) ∉ (progressFold 0 mbCallbacks).map ProgressEvent.percentage := by
  rw [mbEvents_eq_range]
  decide

/-- Claim C5, amended.  That download emits exactly one progress event per
integer percentage point from 1 through 100, in order; 0% is never
emitted. -/
theorem c5_one_event_per_percent_1_to_100 :
    (progressFold 0 mbCallbacks).map ProgressEvent.percentage =
      (List.range' 1 100).map (fun (p : Nat) => (p : Int)) :=
  mbEvents_eq_range

/-- Claim C6.  On any non-2xx response, `fetchRelease` fails with an error
carrying the exact received status and the release tag, and `downloadFile`
fails with an error carrying the exact received status. -/
theorem c6_non2xx_status_errors (tag : String) (resp : ApiResponse)
    (res : FetchResponse) (g : List Nat → List Nat) (gz : Bool) :
    (¬ responseOk resp.status →
      fetchRelease tag resp = .error (.httpStatus resp.status tag)) ∧
    (¬ responseOk res.status →
      downloadFile res g gz = .error (.httpStatus res.status)) := by
  constructor
  · intro h
    simp [fetchRelease, h]
  · intro h
    simp [downloadFile, h]

/-- Witness for C6 at status 404: the release-tag fetch fails with an error
carrying 404 and the tag. -/
theorem c6_non2xx_status_errors_witness :
    fetchRelease "v1.2.3" ⟨404, ⟨"", 0, "", []⟩⟩ =
      .error (.httpStatus 404 "v1.2.3") :=
  (c6_non2xx_status_errors "v1.2.3" ⟨404, ⟨"", 0, "", []⟩⟩ ⟨404, [], []⟩
    id false).1 (by decide)

/-- Claim C10.  An empty proxy-endpoint string is falsy in JavaScript, so
both `fetchRelease` and `downloadFile` issue their requests over the direct
transport, exactly as when no proxy endpoint is supplied at all. -/
theorem c10_empty_proxy_is_direct (tag : String) (tok : Option String)
    (url : String) :
    (fetchReleaseRequest tag tok (some "")).transport = Transport.direct ∧
    (fetchReleaseRequest tag tok none).transport = Transport.direct ∧
    (downloadFileRequest url (some "")).transport = Transport.direct ∧
    (downloadFileRequest url none).transport = Transport.direct :=
  ⟨rfl, rfl, rfl, rfl⟩

/-- Claim C2.  Failures of the download-to-temp stage propagate out of
`download` unchanged, while for every filesystem world — including worlds in
which the displace rename, the final rename and the whole cleanup pass all
fail — `download` still returns normally once the download stage has
succeeded. -/
theorem c2_download_failure_propagation (rawDest : ParsedPath) (gz : Bool)
    (hex : String) (res : FetchResponse) (g : List Nat → List Nat)
    (fs : FsWorld) (e : NetError) (dl : DlSuccess) :
    (downloadFile res g gz = .error e →
      download rawDest gz hex res g fs = .error e) ∧
    (downloadFile res g gz = .ok dl →
      ∃ out, download rawDest gz hex res g fs = .ok out) := by
  constructor
  · intro h
    simp [download, h]
  · intro h
    refine ⟨⟨tempFilePath rawDest hex, oldServerPath rawDest hex, dl.fileBytes,
      progressFold 0 dl.callbacks,
      displaceLogs fs ++ installLogs fs ++ cleanupLogs rawDest fs⟩, ?_⟩
    simp [download, h]

/-- Witness for C2: with a successful one-byte download and a filesystem
world in which every post-download operation fails, `download` still returns
normally. -/
theorem c2_download_failure_propagation_witness :
    ∃ out, download toolDest false "ab" okOneByteResponse id allFailFs =
      .ok out :=
  (c2_download_failure_propagation toolDest false "ab" okOneByteResponse id
    allFailFs NetError.contentLengthAssertion ⟨1, [(1, 1)], [7]⟩).2 rfl

/-- Claim C4.  For any chunk sequence (hence any cumulative readBytes
sequence a download can produce) and any positive totalBytes, the emitted
percentage values are monotonically non-decreasing and contain no
duplicates. -/
theorem c4_progress_monotone_nodup (chunks : List Nat) (t : Int)
    (ht : 0 < t) :
    List.Chain' (· ≤ ·)
      ((progressFold 0 ((cumulativeReads 0 chunks).map
        (fun (r : Nat) => ((r : Int), t)))).map ProgressEvent.percentage) ∧
    ((progressFold 0 ((cumulativeReads 0 chunks).map
        (fun (r : Nat) => ((r : Int), t)))).map ProgressEvent.percentage).Nodup := by
  have hreads := cumulativeReads_chain chunks 0
  have hmap : List.Chain' (· ≤ ·)
      (((0 : Nat) :: cumulativeReads 0 chunks).map
        (fun (r : Nat) => newPercentage (r : Int) t)) :=
    List.chain'_map_of_chain' _
      (fun a b hab => newPercentage_mono ht (by exact_mod_cast hab)) hreads
  rw [List.map_cons] at hmap
  have h0 : newPercentage ((0 : Nat) : Int) t = 0 := by
    rw [Nat.cast_zero, newPercentage_zero]
  rw [h0] at hmap
  have hbridge : ((cumulativeReads 0 chunks).map
      (fun (r : Nat) => ((r : Int), t))).map (fun c => newPercentage c.1 c.2) =
      (cumulativeReads 0 chunks).map
        (fun (r : Nat) => newPercentage (r : Int) t) := by
    rw [List.map_map]
    rfl
  have hchain : List.Chain' (· ≤ ·)
      ((0 : Int) :: ((cumulativeReads 0 chunks).map
        (fun (r : Nat) => ((r : Int), t))).map (fun c => newPercentage c.1 c.2)) := by
    rw [hbridge]
    exact hmap
  have hlt := progressFold_chain_lt _ 0 hchain
  have htail := hlt.tail
  constructor
  · exact List.Chain'.imp (fun a b hab => le_of_lt hab) htail
  · have hpw := List.chain'_iff_pairwise.mp htail
    exact hpw.nodup

/-- Witness for C4 with two one-byte chunks of a two-byte download. -/
theorem c4_progress_monotone_nodup_witness :
    (0 : Int) < 2 ∧
      (List.Chain' (· ≤ ·)
        ((progressFold 0 ((cumulativeReads 0 [1, 1]).map
          (fun (r : Nat) => ((r : Int), (2 : Int))))).map ProgressEvent.percentage) ∧
      ((progressFold 0 ((cumulativeReads 0 [1, 1]).map
          (fun (r : Nat) => ((r : Int), (2 : Int))))).map ProgressEvent.percentage).Nodup) :=
  ⟨by decide, c4_progress_monotone_nodup [1, 1] 2 (by decide)⟩

/-- Claim C7.  From a destination parsed as (dir, name, ext), `download`
derives the temp artifact as dir joined with name ++ random (no extension
appended) and the displaced artifact as dir joined with
name ++ "-stale-" ++ random ++ ext; both live in the destination's own
directory, the displaced name matches the spec's stale pattern, and the two
paths never coincide. -/
theorem c7_derived_paths (rawDest : ParsedPath) (randomHex : String) :
    (tempFilePath rawDest randomHex).dir = rawDest.dir ∧
    (oldServerPath rawDest randomHex).dir = rawDest.dir ∧
    (tempFilePath rawDest randomHex).base = rawDest.name ++ randomHex ∧
    (oldServerPath rawDest randomHex).base =
      rawDest.name ++ "-stale-" ++ randomHex ++ rawDest.ext ∧
    matchesStalePattern rawDest (oldServerPath rawDest randomHex).base ∧
    tempFilePath rawDest randomHex ≠ oldServerPath rawDest randomHex := by
  refine ⟨rfl, rfl, rfl, rfl, ⟨randomHex, rfl⟩, ?_⟩
  intro h
  have hb := congrArg JoinedPath.base h
  simp only [tempFilePath, oldServerPath] at hb
  have hl := congrArg String.length hb
  rw [String.length_append, String.length_append, String.length_append,
    String.length_append] at hl
  have h7 : ("-stale-" : String).length = 7 := by decide
  rw [h7] at hl
  omega

/-- Claim C8, counterexample.  The claim says an entry is selected for
deletion if and only if it matches the displaced-artifact pattern
name-stale-(random)ext.  For destination /opt/tool/tool.exe, the entry
"tool-stale-abc" contains the substring "tool-stale-" and is therefore
selected by the code, yet it does not match the pattern (it lacks the .exe
extension — it is 14 characters long while any pattern match has at least
15). -/
theorem c8_substring_selects_nonpattern_entry :
    cleanupSelects c8Dest "tool-stale-abc" ∧
      ¬ matchesStalePattern c8Dest "tool-stale-abc" := by
  constructor
  · decide
  · rintro ⟨r, hr⟩
    have hl := congrArg String.length hr
    rw [String.length_append, String.length_append, String.length_append] at hl
    have h1 : ("tool-stale-abc" : String).length = 14 := by decide
    have h2 : (c8Dest.name : String).length = 4 := by decide
    have h3 : ("-stale-" : String).length = 7 := by decide
    have h4 : (c8Dest.ext : String).length = 4 := by decide
    rw [h1, h2, h3, h4] at hl
    omega

/-- Claim C8, amended.  The cleanup pass selects an entry exactly when its
name contains the substring name ++ "-stale-" — a strict superset of the
spec's displaced-artifact pattern: every pattern match is selected, but so
are other entries containing the substring.  The pass attempts one deletion
per selected entry and none for unselected ones, and it continues past any
individual deletion failure (and past a listing failure, which only logs). -/
theorem c8_cleanup_selection_and_continuation (rawDest : ParsedPath)
    (fs : FsWorld) (entries : List String) (entry : String)
    (hdir : fs.readDir = .ok entries) (hmem : entry ∈ entries) :
    (matchesStalePattern rawDest entry → cleanupSelects rawDest entry) ∧
    (cleanupSelects rawDest entry →
      (LogEntry.removedOldServerBinary entry ∈ cleanupLogs rawDest fs ∨
       LogEntry.unableToRemoveOldBinary entry ∈ cleanupLogs rawDest fs)) ∧
    (¬ cleanupSelects rawDest entry →
      (LogEntry.removedOldServerBinary entry ∉ cleanupLogs rawDest fs ∧
       LogEntry.unableToRemoveOldBinary entry ∉ cleanupLogs rawDest fs)) := by
  refine ⟨?_, ?_, ?_⟩
  · rintro ⟨r, hr⟩
    refine ⟨[], r.data ++ rawDest.ext.data, ?_⟩
    rw [hr]
    simp [String.data_append]
  · intro hsel
    cases hdel : fs.deleteEntry entry with
    | ok u =>
      left
      simp only [cleanupLogs, hdir, List.mem_flatten, List.mem_map]
      exact ⟨cleanupEntryLogs rawDest fs entry, ⟨entry, hmem, rfl⟩,
        by simp [cleanupEntryLogs, hsel, hdel]⟩
    | error er =>
      right
      simp only [cleanupLogs, hdir, List.mem_flatten, List.mem_map]
      exact ⟨cleanupEntryLogs rawDest fs entry, ⟨entry, hmem, rfl⟩,
        by simp [cleanupEntryLogs, hsel, hdel]⟩
  · intro hsel
    constructor
    · intro hin
      simp only [cleanupLogs, hdir, List.mem_flatten, List.mem_map] at hin
      obtain ⟨l, ⟨e2, he2, hl⟩, hinl⟩ := hin
      subst hl
      by_cases hsel2 : cleanupSelects rawDest e2
      · simp only [cleanupEntryLogs, if_pos hsel2] at hinl
        cases hdel2 : fs.deleteEntry e2 <;> rw [hdel2] at hinl <;>
          simp at hinl
        · exact hsel (hinl ▸ hsel2)
      · simp [cleanupEntryLogs, hsel2] at hinl
    · intro hin
      simp only [cleanupLogs, hdir, List.mem_flatten, List.mem_map] at hin
      obtain ⟨l, ⟨e2, he2, hl⟩, hinl⟩ := hin
      subst hl
      by_cases hsel2 : cleanupSelects rawDest e2
      · simp only [cleanupEntryLogs, if_pos hsel2] at hinl
        cases hdel2 : fs.deleteEntry e2 <;> rw [hdel2] at hinl <;>
          simp at hinl
        · exact hsel (hinl ▸ hsel2)
      · simp [cleanupEntryLogs, hsel2] at hinl

/-- Witness for C8's amended theorem on a concrete stale entry whose
deletion fails: the pass still records the attempt. -/
theorem c8_cleanup_selection_and_continuation_witness :
    (matchesStalePattern toolDest "tool-stale-aa" →
      cleanupSelects toolDest "tool-stale-aa") ∧
    (cleanupSelects toolDest "tool-stale-aa" →
      (LogEntry.removedOldServerBinary "tool-stale-aa" ∈
        cleanupLogs toolDest cleanupFailFs ∨
       LogEntry.unableToRemoveOldBinary "tool-stale-aa" ∈
        cleanupLogs toolDest cleanupFailFs)) ∧
    (¬ cleanupSelects toolDest "tool-stale-aa" →
      (LogEntry.removedOldServerBinary "tool-stale-aa" ∉
        cleanupLogs toolDest cleanupFailFs ∧
       LogEntry.unableToRemoveOldBinary "tool-stale-aa" ∉
        cleanupLogs toolDest cleanupFailFs)) :=
  c8_cleanup_selection_and_continuation toolDest cleanupFailFs
    ["tool-stale-aa"] "tool-stale-aa" rfl (by decide)

/-- Claim C9.  For any sequence of progress callbacks, the emitted
increments telescope: their sum equals the percentage of the last emitted
event, so a consumer accumulating increments reaches the same total as the
absolute percentage. -/
theorem c9_increments_telescope (cbs : List (Int × Int)) (e : ProgressEvent)
    (hlast : (progressFold 0 cbs).getLast? = some e) :
    ((progressFold 0 cbs).map ProgressEvent.increment).sum = e.percentage := by
  have h := progressFold_sum_increment cbs 0
  rw [hlast] at h
  simpa using h

/-- Witness for C9 on the single callback (1, 2): one event of percentage 50
and increment 50 is emitted, and the increment sum is 50. -/
theorem c9_increments_telescope_witness :
    ((progressFold 0 [((1 : Int), (2 : Int))]).map ProgressEvent.increment).sum =
      (50 : Int) := by
  have h50 : newPercentage (1 : Int) (2 : Int) = 50 := by
    have h := newPercentage_natCast 1 2 (by decide)
    norm_num [natPercentage] at h
    exact h
  have hfold : progressFold 0 [((1 : Int), (2 : Int))] = [⟨50, 50⟩] := by
    simp [progressFold, h50]
  exact c9_increments_telescope [((1 : Int), (2 : Int))] ⟨50, 50⟩
    (by rw [hfold]; rfl)

end Net
